import Mathlib

/-!
Shallow embedding of the playback-queue engine of the musicbot-rs
repository, together with theorems checking the natural-language
specification against it.

The embedding follows the source files:
* `src/queue.rs`   — per-guild queue state and its operations
  (`Data::add_song`, `Data::next_song`, `Data::play_index`,
  `Data::play_index_unchecked`, `set_loop_song`, `set_loop_queue`,
  `reset_queue`, `get_song_data`);
* `src/events.rs`  — the `TrackEndNotifier` track-completion handler;
* `src/playlist_info.rs` — the status-message refresh pass
  (`run_message_updates`, `update_queue_messsage`) and the bounded
  retry helper `try_call_hanging`;
* `src/config.rs`  — the `max_previously_played` configuration value.

External collaborators (the songbird voice transport, the chat
platform's message editing, the audio resolver) enter as explicit
parameters recording their observable answers; the mutation of the
shared guild map is modelled by explicit state passing over an
association list.
-/

namespace MusicBot

/-! ## Data model of `src/queue.rs` -/

abbrev GuildId := Nat

/-- Opaque track handle returned by the voice transport when playback
of an input starts (`songbird::tracks::TrackHandle`). -/
structure TrackHandle where
  id : Nat
deriving DecidableEq, Repr

/-- `songbird::input::YoutubeDl`: a re-resolvable source descriptor.
`lazySearch = true` corresponds to `YoutubeDl::new_search`,
`false` to `YoutubeDl::new`. -/
structure YoutubeDl where
  lazySearch : Bool
  query : String
deriving DecidableEq, Repr

/-- `Song` of `src/queue.rs`: name, url and the source descriptor. -/
structure Song where
  name : String
  url : String
  src : YoutubeDl
deriving DecidableEq, Repr

/-- `CurrentSong` of `src/queue.rs`: index into `songs` plus the
transport handle of the running track. -/
structure CurrentSong where
  index : Nat
  handle : TrackHandle
deriving DecidableEq, Repr

/-- `ServerQueue` of `src/queue.rs`. -/
structure ServerQueue where
  loop_song : Bool
  loop_queue : Bool
  current : Option CurrentSong
  songs : List Song
deriving DecidableEq, Repr

/-- `ServerQueue::default()`: both loop flags off, no current song,
empty song list. -/
def ServerQueue.default : ServerQueue :=
  { loop_song := false, loop_queue := false, current := none, songs := [] }

/-- `AddSongResult` of `src/queue.rs`. -/
inductive AddSongResult where
  | NowPlaying : Song → AddSongResult
  | AddedToQueue : Song → AddSongResult
deriving DecidableEq, Repr

/-- A `HashMap<GuildId, α>` modelled as an association list (first
binding wins on lookup). -/
abbrev GuildMap (α : Type) := List (GuildId × α)

/-- `HashMap::get`. -/
def mapLookup {α : Type} : GuildMap α → GuildId → Option α
  | [], _ => none
  | (g, q) :: rest, gq => if g = gq then some q else mapLookup rest gq

/-- `HashMap::insert`: replace the binding if the guild is present,
append it otherwise. -/
def mapInsert {α : Type} : GuildMap α → GuildId → α → GuildMap α
  | [], g, q => [(g, q)]
  | (g0, q0) :: rest, g, q =>
    if g0 = g then (g0, q) :: rest else (g0, q0) :: mapInsert rest g q

/-- `HashMap::remove`. -/
def mapRemove {α : Type} : GuildMap α → GuildId → GuildMap α
  | [], _ => []
  | (g0, q0) :: rest, g =>
    if g0 = g then rest else (g0, q0) :: mapRemove rest g

/-- The guild → `ServerQueue` map held inside `Data.server_queues`. -/
abbrev QueueMap := GuildMap ServerQueue

/-! ## The voice transport as seen by `src/queue.rs`

`songbird.get(guild_id)` either fails (not in a voice channel) or
yields a handler whose `play_input` starts a track and returns its
handle; `TrackHandle::pause` may fail with an error message.  The
transport's observable answers are packaged in `Songbird`. -/

/-- A driver handler, as returned by `Songbird::get`: `play_input`
starts playback of a source and returns the new track handle. -/
structure Handler where
  play_input : YoutubeDl → TrackHandle

/-- The voice transport: per-guild handler availability, plus the
outcome of pausing a given track (`none` = pause succeeded,
`some e` = pause failed with message `e`). -/
structure Songbird where
  get : GuildId → Option Handler
  pause_err : TrackHandle → Option String

/-! ## Operations of `src/queue.rs` -/

/-- `Data::get_mut_queue_or_default`: return the guild's queue,
inserting a default queue first when the guild has none.  The
returned map reflects the possible insertion. -/
def get_mut_queue_or_default (store : QueueMap) (guild_id : GuildId) :
    ServerQueue × QueueMap :=
  match mapLookup store guild_id with
  | some q => (q, store)
  | none => (ServerQueue.default, mapInsert store guild_id ServerQueue.default)

/-- `Data::get_queue`. -/
def get_queue (store : QueueMap) (guild_id : GuildId) : Option ServerQueue :=
  mapLookup store guild_id

/-- `Data::reset_queue`: remove and return the guild's state. -/
def reset_queue (store : QueueMap) (guild_id : GuildId) :
    Option ServerQueue × QueueMap :=
  (mapLookup store guild_id, mapRemove store guild_id)

/-- `Data::play_index_unchecked`: obtain the guild's driver from the
transport (error if absent), look the song up at `index` (error if
absent), start it and record it as `current`.  The second component
is the guild map after the call. -/
def play_index_unchecked (songbird : Songbird) (guild_id : GuildId)
    (index : Nat) (store : QueueMap) : Except String Song × QueueMap :=
  match songbird.get guild_id with
  | none => (Except.error ("Not in a voice channel to play in"), store)
  | some handler =>
    let qs := get_mut_queue_or_default store guild_id
    match qs.1.songs[index]? with
    | none =>
      (Except.error ("Song " ++ toString (index + 1) ++ " not found."), qs.2)
    | some song =>
      let handle := handler.play_input song.src
      (Except.ok song,
        mapInsert qs.2 guild_id { qs.1 with current := some ⟨index, handle⟩ })

/-! ## Song resolution (`get_song_data` of `src/queue.rs`)

The external resolver's answer (`src.search(Some(1))`) is a parameter:
either an error or the list of metadata results.  The Rust code can
*panic* here (its `.expect`, and `swap_remove(0)` on an empty vector),
so outcomes distinguish a returned error from a crash. -/

/-- The metadata record produced by the resolver
(`songbird`'s `AuxMetadata`, restricted to the fields read). -/
structure AuxMetadata where
  title : Option String
  source_url : Option String
deriving DecidableEq, Repr, Inhabited

/-- Outcome of a fallible Rust call: a returned value, a returned
`Err`, or a thread panic (crash). -/
inductive Outcome (α : Type) where
  | ok : α → Outcome α
  | err : String → Outcome α
  | panicked : String → Outcome α
deriving DecidableEq, Repr

/-- `Vec::swap_remove(0)`: remove and return element 0, moving the
last element into its place; `none` models the out-of-bounds panic on
an empty vector. -/
def swap_remove (l : List AuxMetadata) : Option (AuxMetadata × List AuxMetadata) :=
  match l with
  | [] => none
  | [a] => some (a, [])
  | a :: rest => some (a, rest.getLast! :: rest.dropLast)

/-- `get_song_data` of `src/queue.rs`.  `search_result` is the answer
of `src.search(Some(1))`.  Mirrors the source line by line: a resolver
error panics through `.expect`; the zero-result check
`if aux_multiple.len() == 0 {}` has an empty body and does nothing;
`swap_remove(0)` then panics when the list is empty. -/
def get_song_data (url : String) (search_result : Except String (List AuxMetadata)) :
    Outcome Song :=
  let do_search := !(url.startsWith ("http"))
  match search_result with
  | Except.error _ => Outcome.panicked ("Failed to get info about song.")
  | Except.ok aux_multiple =>
    match swap_remove aux_multiple with
    | none =>
      Outcome.panicked ("swap_remove index (is 0) should be < len (is 0)")
    | some (aux, _) =>
      let title := aux.title.getD ("Unknown")
      Outcome.ok
        { name := title
          url := (aux.source_url.orElse
                    (fun _ => if !do_search then some url else none)).getD
                  ("Unknown")
          src := ⟨do_search, url⟩ }

/-- `Data::add_song` of `src/queue.rs`: resolve the song, push it onto
the guild's list; when a `current` already exists return
`AddedToQueue`, otherwise start the new entry via
`play_index_unchecked` and return `NowPlaying`.  A resolver panic or a
transport error is surfaced in the first component; the second is the
guild map afterwards. -/
def add_song (songbird : Songbird) (guild_id : GuildId) (url : String)
    (search_result : Except String (List AuxMetadata)) (store : QueueMap) :
    Outcome AddSongResult × QueueMap :=
  match get_song_data url search_result with
  | Outcome.err e => (Outcome.err e, store)
  | Outcome.panicked m => (Outcome.panicked m, store)
  | Outcome.ok song =>
    let qs := get_mut_queue_or_default store guild_id
    let q := qs.1
    let q1 := { q with songs := q.songs ++ [song] }
    let loc := q1.songs.length - 1
    let store1 := mapInsert qs.2 guild_id q1
    if q.current.isSome then
      (Outcome.ok (AddSongResult.AddedToQueue song), store1)
    else
      let r := play_index_unchecked songbird guild_id loc store1
      (match r.1 with
       | Except.ok playing => Outcome.ok (AddSongResult.NowPlaying playing)
       | Except.error e => Outcome.err e,
       r.2)

/-- `Data::next_song` of `src/queue.rs` (the advance operation).
Computes the next index from the loop flags, goes idle when it falls
off the end, otherwise plays it via `play_index_unchecked`.  The
`new_index % songs_len` of the source is a Rust remainder, which
panics on a zero divisor; that is the `panicked` outcome. -/
def next_song (songbird : Songbird) (guild_id : GuildId) (store : QueueMap) :
    Outcome (Option Song) × QueueMap :=
  let qs := get_mut_queue_or_default store guild_id
  let q := qs.1
  let songs_len := q.songs.length
  match q.current with
  | none =>
    (Outcome.err ("No curernt song, can't play the next one."), qs.2)
  | some current =>
    let base := current.index + (if q.loop_song then 0 else 1)
    if q.loop_queue ∧ songs_len = 0 then
      (Outcome.panicked
        ("attempt to calculate the remainder with a divisor of zero"), qs.2)
    else
      let new_index := if q.loop_queue then base % songs_len else base
      if songs_len ≤ new_index then
        (Outcome.ok none, mapInsert qs.2 guild_id { q with current := none })
      else
        let r := play_index_unchecked songbird guild_id new_index qs.2
        (match r.1 with
         | Except.ok s => Outcome.ok (some s)
         | Except.error e => Outcome.err e,
         r.2)

/-- `Data::play_index` of `src/queue.rs`: error when the guild has no
queue, error when `index` misses the song list, otherwise pause the
current track (propagating a pause failure) and start the requested
entry via `play_index_unchecked`. -/
def play_index (songbird : Songbird) (guild_id : GuildId) (index : Nat)
    (store : QueueMap) : Except String Song × QueueMap :=
  match mapLookup store guild_id with
  | none => (Except.error ("Nothing playing, can't jump to index."), store)
  | some q =>
    match q.songs[index]? with
    | none =>
      (Except.error
        ("Can't find song with index " ++ toString (index + 1) ++ " in queue."),
       store)
    | some _ =>
      let paused : Option String :=
        match q.current with
        | none => none
        | some current => songbird.pause_err current.handle
      match paused with
      | some e =>
        (Except.error ("Failed to pause previous track: " ++ e), store)
      | none => play_index_unchecked songbird guild_id index store

/-- `Data::set_loop_song`: flip the flag, return its new value. -/
def set_loop_song (store : QueueMap) (guild_id : GuildId) : Bool × QueueMap :=
  let qs := get_mut_queue_or_default store guild_id
  let q1 := { qs.1 with loop_song := !qs.1.loop_song }
  (q1.loop_song, mapInsert qs.2 guild_id q1)

/-- `Data::set_loop_queue`: flip the flag, return its new value. -/
def set_loop_queue (store : QueueMap) (guild_id : GuildId) : Bool × QueueMap :=
  let qs := get_mut_queue_or_default store guild_id
  let q1 := { qs.1 with loop_queue := !qs.1.loop_queue }
  (q1.loop_queue, mapInsert qs.2 guild_id q1)

/-! ## `src/config.rs` -/

/-- `default_max_previously_played` of `src/config.rs` (the serde
default for the field). -/
def default_max_previously_played : Nat := 5

/-! ## Display state and the track-end handler
(`src/events.rs`, `src/playlist_info.rs`)

This revision keeps, per guild, a `ServerInfo` with the
previously-played history (a `VecDeque`, front = oldest) and the
location of the auto-refreshed status message.  Its `Song` type
differs from the queue's: only a title and an optional url. -/

namespace Info

/-- `Song` as used by `src/events.rs` / `src/playlist_info.rs`. -/
structure Song where
  title : String
  url : Option String
deriving DecidableEq, Repr

/-- `MsgLocation`: channel and message id of the status message. -/
structure MsgLocation where
  channel_id : Nat
  message_id : Nat
deriving DecidableEq, Repr

/-- `ServerInfo`: previously-played FIFO (head = front = oldest) and
the optional status-message pointer. -/
structure ServerInfo where
  previous_songs : List Song
  status_message : Option MsgLocation
deriving DecidableEq, Repr

/-- `ServerInfo::default()`. -/
def ServerInfo.default : ServerInfo :=
  { previous_songs := [], status_message := none }

end Info

/-- The guild → `ServerInfo` map (`Data.server_info`). -/
abbrev InfoMap := GuildMap Info.ServerInfo

/-- `get_server_info` of `src/playlist_info.rs`: fetch the guild's
`ServerInfo`, inserting a default one when absent. -/
def get_server_info (infos : InfoMap) (guild_id : GuildId) :
    Info.ServerInfo × InfoMap :=
  match mapLookup infos guild_id with
  | some a => (a, infos)
  | none =>
    (Info.ServerInfo.default, mapInsert infos guild_id Info.ServerInfo.default)

/-- The `while server_info.previous_songs.len() > max { pop_front() }`
loop of `TrackEndNotifier::act`: drop from the front while the length
exceeds the cap. -/
def pop_front_while_over (cap : Nat) : List Info.Song → List Info.Song
  | [] => []
  | x :: xs =>
    if cap < xs.length + 1 then pop_front_while_over cap xs else x :: xs

/-- One track's history update in `TrackEndNotifier::act`:
`push_back` the ended song, then evict from the front while over
`max_previously_played`. -/
def push_capped (cap : Nat) (l : List Info.Song) (s : Info.Song) :
    List Info.Song :=
  pop_front_while_over cap (l ++ [s])

/-- The whole per-guild bot state the track-end handler could reach:
the queue-engine map (`server_queues`) alongside the display map
(`server_info`).  Only the latter is touched by the handler. -/
structure BotState where
  queues : QueueMap
  infos : InfoMap
deriving DecidableEq, Repr

/-- `TrackEndNotifier::act` of `src/events.rs` for one delivered
track-end event.  `track_songs` are the songs read from the typemaps
of the tracks in the event's `track_list` (title defaulting to
"Unknown", optional url), processed in order: each is appended to the
guild's `previous_songs` and the front is popped while the length
exceeds `max_previously_played`.  The handler returns `None` and
touches nothing else — in particular it never calls
`Data::next_song`. -/
def track_end_act (max_previously_played : Nat) (guild_id : GuildId)
    (track_songs : List Info.Song) (st : BotState) : BotState :=
  track_songs.foldl
    (fun st song =>
      let si := get_server_info st.infos guild_id
      let info1 :=
        { si.1 with
          previous_songs := push_capped max_previously_played si.1.previous_songs song }
      { st with infos := mapInsert si.2 guild_id info1 })
    st

/-! ## The status-message refresh pass (`src/playlist_info.rs`)

`update_queue_messsage` builds the embeds (recording whether the bot
is in the guild's voice channel) and edits the status message; it
returns `true` exactly when the edit succeeded *and* the bot is in a
voice channel.  `run_message_updates` runs it for every guild whose
pointer is set and clears the pointer when it returned `false`.  The
chat platform's and transport's answers are packaged in
`UpdateEnv`. -/

/-- Environment of one refresh cycle: whether editing a given status
message succeeds, and whether `build_now_playing` finds the bot in
the guild's voice channel (`NowPlayingResult::NotInChannel`). -/
structure UpdateEnv where
  edit_ok : GuildId → Info.MsgLocation → Bool
  in_channel : GuildId → Bool

/-- `update_queue_messsage` of `src/playlist_info.rs`: on a successful
edit return `!not_in_channel`; on an edit failure log and return
`false`. -/
def update_queue_messsage (env : UpdateEnv) (guild_id : GuildId)
    (loc : Info.MsgLocation) : Bool :=
  if env.edit_ok guild_id loc then env.in_channel guild_id else false

/-- Effect of one refresh cycle on one guild's `ServerInfo`: a guild
without a status pointer is skipped (not updated), one with a pointer
is updated and keeps the pointer exactly when `update_queue_messsage`
returned `true`. -/
def process_server_info (env : UpdateEnv) (guild_id : GuildId)
    (info : Info.ServerInfo) : Info.ServerInfo :=
  match info.status_message with
  | none => info
  | some loc =>
    if update_queue_messsage env guild_id loc then info
    else { info with status_message := none }

/-- `run_message_updates` of `src/playlist_info.rs`: for every guild
whose `status_message` is set, run `update_queue_messsage`; when it
returns `false`, clear the pointer.  Guilds without a pointer are
skipped entirely. -/
def run_message_updates (env : UpdateEnv) (infos : InfoMap) : InfoMap :=
  infos.map (fun gi => (gi.1, process_server_info env gi.1 gi.2))

/-! ## The bounded retry helper (`try_call_hanging` of
`src/playlist_info.rs`)

`for _ in 0..3 { select! { v = func() => return Some(v),
_ = sleep(1 s) => {} } } None`.  Attempt `i`'s observable outcome is
`f i`: `some v` when that invocation completes within its 1-second
window with value `v`, `none` when it is still pending at the
timeout. -/

/-- The attempt bound of the `for _ in 0..3` loop. -/
def retry_attempt_bound : Nat := 3

/-- The per-attempt timeout (`Duration::from_secs(1)`), in seconds. -/
def retry_timeout_secs : Nat := 1

/-- The retry loop: `fuel` iterations remain, `i` is the next attempt
number; a completed attempt returns immediately, a timed-out one
falls through to the next iteration. -/
def try_call_loop {T : Type} (f : Nat → Option T) : Nat → Nat → Option T
  | _, 0 => none
  | i, fuel + 1 =>
    match f i with
    | some v => some v
    | none => try_call_loop f (i + 1) fuel

/-- `try_call_hanging` of `src/playlist_info.rs`. -/
def try_call_hanging {T : Type} (f : Nat → Option T) : Option T :=
  try_call_loop f 0 retry_attempt_bound

/-- Number of attempts the loop makes (each iteration either returns
or times out; the loop stops after the first completion, or after
`retry_attempt_bound` timed-out attempts). -/
def try_call_attempts {T : Type} (f : Nat → Option T) : Nat :=
  if (f 0).isSome then 1 else if (f 1).isSome then 2 else 3

/-- Seconds spent waiting out full timeout windows: every attempt that
times out costs `retry_timeout_secs`; a completing attempt returns
within its window. -/
def try_call_timeout_secs_spent {T : Type} (f : Nat → Option T) : Nat :=
  if (f 0).isSome then 0
  else if (f 1).isSome then retry_timeout_secs
  else if (f 2).isSome then 2 * retry_timeout_secs
  else 3 * retry_timeout_secs

/-! ## The advance target as the specification words it -/

/-- The advance target of §4.2 of the spec: `current.index` when
`loopSong` is set; otherwise `current.index + 1`, wrapped modulo the
queue length when `loopQueue` is set. -/
def nextTarget (q : ServerQueue) (c : CurrentSong) : Nat :=
  if q.loop_song then c.index
  else if q.loop_queue then (c.index + 1) % q.songs.length
  else c.index + 1

/-! ## Operation alphabet for the queue-state invariant (C2) -/

/-- One queue operation together with the answers of its external
collaborators (transport, resolver). -/
inductive Op where
  | addOp (sb : Songbird) (url : String)
      (res : Except String (List AuxMetadata)) (g : GuildId)
  | nextOp (sb : Songbird) (g : GuildId)
  | playOp (sb : Songbird) (g : GuildId) (i : Nat)
  | loopSongOp (g : GuildId)
  | loopQueueOp (g : GuildId)
  | resetOp (g : GuildId)

/-- Effect of one operation on the guild → queue map. -/
def step (op : Op) (store : QueueMap) : QueueMap :=
  match op with
  | Op.addOp sb url res g => (add_song sb g url res store).2
  | Op.nextOp sb g => (next_song sb g store).2
  | Op.playOp sb g i => (play_index sb g i store).2
  | Op.loopSongOp g => (set_loop_song store g).2
  | Op.loopQueueOp g => (set_loop_queue store g).2
  | Op.resetOp g => (reset_queue store g).2

/-- Run a sequence of operations from the empty store. -/
def runOps (ops : List Op) : QueueMap :=
  ops.foldl (fun st op => step op st) []

/-- Per-guild invariant: whenever `current` is set, its index is a
valid position in `songs`. -/
def queueInv (q : ServerQueue) : Prop :=
  ∀ c, q.current = some c → c.index < q.songs.length

/-- Store invariant: every queue recorded in the map (shadowed
bindings included) satisfies `queueInv`. -/
def storeInv (m : QueueMap) : Prop :=
  ∀ e ∈ m, queueInv e.2

/-! ## Concrete values used by the witnesses -/

/-- A concrete queue-revision song. -/
def songA : Song := { name := "A", url := "uA", src := ⟨true, "a"⟩ }

/-- A second concrete song. -/
def songB : Song := { name := "B", url := "uB", src := ⟨true, "b"⟩ }

/-- A concrete driver handler whose `play_input` hands out handle 7. -/
def handlerW : Handler := { play_input := fun _ => ⟨7⟩ }

/-- A transport that is in a voice channel for every guild and whose
pauses succeed. -/
def sbW : Songbird := { get := fun _ => some handlerW, pause_err := fun _ => none }

/-- A transport that is in no voice channel. -/
def sbNone : Songbird := { get := fun _ => none, pause_err := fun _ => none }

/-- A concrete guild queue: two songs, the first one playing. -/
def qW : ServerQueue :=
  { loop_song := false, loop_queue := false,
    current := some ⟨0, ⟨5⟩⟩, songs := [songA, songB] }

/-- A one-guild store holding `qW` at guild 0. -/
def storeW : QueueMap := [(0, qW)]

/-- A concrete resolver answer with exactly one result. -/
def resW : Except String (List AuxMetadata) :=
  Except.ok [{ title := some "A", source_url := some "uA" }]

/-- The current-song record of `qW`. -/
def cW : CurrentSong := ⟨0, ⟨5⟩⟩

/-- The guild-0 queue produced by one `add_song` on the empty store
with transport `sbW` and resolver answer `resW`. -/
def qAfterAdd : ServerQueue :=
  { loop_song := false, loop_queue := false,
    current := some ⟨0, ⟨7⟩⟩, songs := [songA] }

/-- History-side invariant: every guild's recorded history respects
the configured cap. -/
def infosBounded (cap : Nat) (infos : InfoMap) : Prop :=
  ∀ e ∈ infos, e.2.previous_songs.length ≤ cap

/-- A track-end event stream: each event carries the guild it fires
for and the ended tracks' songs. -/
def runEvents (cap : Nat) (events : List (GuildId × List Info.Song))
    (st : BotState) : BotState :=
  events.foldl (fun st ev => track_end_act cap ev.1 ev.2 st) st

/-- A concrete events-revision song. -/
def songE : Info.Song := { title := "A", url := some "uA" }

/-- A second concrete events-revision song. -/
def songF : Info.Song := { title := "B", url := none }

/-- A concrete combined bot state: guild 0 playing song 0 of two, no
display state yet. -/
def botW : BotState := { queues := storeW, infos := [] }

/-- A concrete status-message location. -/
def locW : Info.MsgLocation := ⟨1, 2⟩

/-- A `ServerInfo` with the status pointer set to `locW`. -/
def infoW : Info.ServerInfo := { previous_songs := [], status_message := some locW }

/-- A refresh environment where every edit succeeds but the bot is in
no voice channel. -/
def envCex : UpdateEnv :=
  { edit_ok := fun _ _ => true, in_channel := fun _ => false }

/-- A refresh environment where every edit succeeds and the bot is in
a voice channel everywhere. -/
def envOk : UpdateEnv :=
  { edit_ok := fun _ _ => true, in_channel := fun _ => true }

/-- An operation that never completes within its timeout window. -/
def fHang : Nat → Option Nat := fun _ => none

/-- An operation that completes (with value 42) only on its second
attempt. -/
def fSecond : Nat → Option Nat := fun i => if i = 1 then some 42 else none

/-! ## Basic facts about the guild maps -/

theorem mapLookup_mapInsert_self {α : Type} (m : GuildMap α) (g : GuildId) (a : α) :
    mapLookup (mapInsert m g a) g = some a := by
  induction m with
  | nil => simp [mapInsert, mapLookup]
  | cons hd tl ih =>
    by_cases hg : hd.1 = g
    · simp [mapInsert, mapLookup, hg]
    · simp [mapInsert, mapLookup, hg, ih]

theorem mapLookup_mapInsert_ne {α : Type} (m : GuildMap α) (g gq : GuildId) (a : α)
    (hne : g ≠ gq) : mapLookup (mapInsert m g a) gq = mapLookup m gq := by
  induction m with
  | nil => simp [mapInsert, mapLookup, hne]
  | cons hd tl ih =>
    by_cases hg : hd.1 = g
    · simp [mapInsert, mapLookup, hg, hne]
    · simp [mapInsert, mapLookup, hg, ih]

theorem mapInsert_mapInsert {α : Type} (m : GuildMap α) (g : GuildId) (a b : α) :
    mapInsert (mapInsert m g a) g b = mapInsert m g b := by
  induction m with
  | nil => simp [mapInsert]
  | cons hd tl ih =>
    by_cases hg : hd.1 = g
    · simp [mapInsert, hg]
    · simp [mapInsert, hg, ih]

theorem get_mut_of_lookup {store : QueueMap} {g : GuildId} {q : ServerQueue}
    (hq : mapLookup store g = some q) :
    get_mut_queue_or_default store g = (q, store) := by
  simp [get_mut_queue_or_default, hq]

theorem play_index_unchecked_ok {sb : Songbird} {h : Handler} {g : GuildId}
    {store : QueueMap} {q : ServerQueue} {i : Nat} {s : Song}
    (hsb : sb.get g = some h) (hq : mapLookup store g = some q)
    (hs : q.songs[i]? = some s) :
    play_index_unchecked sb g i store =
      (Except.ok s,
        mapInsert store g { q with current := some ⟨i, h.play_input s.src⟩ }) := by
  simp [play_index_unchecked, hsb, get_mut_of_lookup hq, hs]

/-! ## C1: the advance operation (`Data::next_song`) -/

theorem code_index_eq_nextTarget (q : ServerQueue) (c : CurrentSong)
    (hidx : c.index < q.songs.length) :
    (if q.loop_queue then
       (c.index + (if q.loop_song then 0 else 1)) % q.songs.length
     else c.index + (if q.loop_song then 0 else 1)) = nextTarget q c := by
  rcases Bool.eq_false_or_eq_true q.loop_song with hs | hs <;>
    rcases Bool.eq_false_or_eq_true q.loop_queue with hl | hl <;>
      simp [nextTarget, hs, hl, Nat.mod_eq_of_lt hidx]

/-- C1.  For every guild state with a current playback over a
non-empty song list (its index in range, per the data-model
invariant), `next_song` targets `current.index` when `loop_song` is
set, else `current.index + 1` wrapped modulo the queue length when
`loop_queue` is set; an out-of-range target goes idle
(`current = None`, nothing returned), an in-range target starts
playback there exactly as `play_index_unchecked` would and returns
the entry at that index. -/
theorem next_song_spec (sb : Songbird) (h : Handler) (g : GuildId)
    (store : QueueMap) (q : ServerQueue) (c : CurrentSong)
    (hq : mapLookup store g = some q) (hc : q.current = some c)
    (hidx : c.index < q.songs.length) (hsb : sb.get g = some h) :
    (q.songs.length ≤ nextTarget q c →
      next_song sb g store =
        (Outcome.ok none, mapInsert store g { q with current := none })) ∧
    (nextTarget q c < q.songs.length →
      ∃ s, q.songs[nextTarget q c]? = some s ∧
        next_song sb g store =
          (Outcome.ok (some s),
            mapInsert store g
              { q with current := some ⟨nextTarget q c, h.play_input s.src⟩ })) := by
  have hlen : 0 < q.songs.length := Nat.lt_of_le_of_lt (Nat.zero_le _) hidx
  have hpanic : ¬(q.loop_queue = true ∧ q.songs.length = 0) := by
    rintro ⟨_, h0⟩; omega
  have hnix := code_index_eq_nextTarget q c hidx
  have hne : ¬q.songs = [] := by
    intro h0
    rw [h0] at hlen
    simp at hlen
  constructor
  · intro hge
    simp only [next_song, get_mut_of_lookup hq, hc]
    simp [hpanic, hnix, hge, hne]
  · intro hlt
    obtain ⟨s, hs⟩ : ∃ s, q.songs[nextTarget q c]? = some s :=
      ⟨_, List.getElem?_eq_getElem hlt⟩
    refine ⟨s, hs, ?_⟩
    simp only [next_song, get_mut_of_lookup hq, hc]
    simp [hpanic, hnix, Nat.not_le.mpr hlt, hne,
      play_index_unchecked_ok hsb hq hs]

/-- Witness for C1: in the two-song store `storeW` with song 0
playing and no loop flag, advancing plays song 1. -/
theorem next_song_spec_witness :
    nextTarget qW cW < qW.songs.length ∧
    ∃ s, qW.songs[nextTarget qW cW]? = some s ∧
      next_song sbW 0 storeW =
        (Outcome.ok (some s),
          mapInsert storeW 0
            { qW with
              current := some ⟨nextTarget qW cW, handlerW.play_input s.src⟩ }) :=
  ⟨by decide,
    (next_song_spec sbW handlerW 0 storeW qW cW rfl rfl (by decide) rfl).2
      (by decide)⟩

/-! ## C2: the queue-state invariant -/

theorem mapLookup_mem {α : Type} {m : GuildMap α} {g : GuildId} {a : α}
    (h : mapLookup m g = some a) : (g, a) ∈ m := by
  induction m with
  | nil => simp [mapLookup] at h
  | cons hd tl ih =>
    rcases hd with ⟨g0, a0⟩
    by_cases hg : g0 = g
    · subst hg
      simp [mapLookup] at h
      simp [h]
    · simp [mapLookup, hg] at h
      exact List.mem_cons_of_mem _ (ih h)

theorem mem_mapInsert {α : Type} {m : GuildMap α} {g : GuildId} {a : α}
    {e : GuildId × α} (h : e ∈ mapInsert m g a) : e = (g, a) ∨ e ∈ m := by
  induction m with
  | nil => simpa [mapInsert] using h
  | cons hd tl ih =>
    by_cases hg : hd.1 = g
    · rcases hd with ⟨g0, a0⟩
      subst hg
      simp [mapInsert] at h
      rcases h with h | h
      · exact Or.inl h
      · exact Or.inr (List.mem_cons_of_mem _ h)
    · simp [mapInsert, hg] at h
      rcases h with h | h
      · exact Or.inr (by simp [h])
      · rcases ih h with h1 | h1
        · exact Or.inl h1
        · exact Or.inr (List.mem_cons_of_mem _ h1)

theorem mem_mapRemove {α : Type} {m : GuildMap α} {g : GuildId}
    {e : GuildId × α} (h : e ∈ mapRemove m g) : e ∈ m := by
  induction m with
  | nil => simp [mapRemove] at h
  | cons hd tl ih =>
    by_cases hg : hd.1 = g
    · rcases hd with ⟨g0, a0⟩
      subst hg
      simp [mapRemove] at h
      exact List.mem_cons_of_mem _ h
    · simp [mapRemove, hg] at h
      rcases h with h | h
      · simp [h]
      · exact List.mem_cons_of_mem _ (ih h)

theorem queueInv_of_lookup {m : QueueMap} {g : GuildId} {q : ServerQueue}
    (hm : storeInv m) (h : mapLookup m g = some q) : queueInv q :=
  hm (g, q) (mapLookup_mem h)

theorem storeInv_insert {m : QueueMap} {g : GuildId} {q : ServerQueue}
    (hm : storeInv m) (hq : queueInv q) : storeInv (mapInsert m g q) := by
  intro e he
  rcases mem_mapInsert he with h | h
  · rw [h]
    exact hq
  · exact hm e h

theorem queueInv_default : queueInv ServerQueue.default := by
  intro c hc
  simp [ServerQueue.default] at hc

theorem get_mut_spec (m : QueueMap) (g : GuildId) (hm : storeInv m) :
    queueInv (get_mut_queue_or_default m g).1 ∧
    storeInv (get_mut_queue_or_default m g).2 := by
  rcases hl : mapLookup m g with _ | q
  · simp only [get_mut_queue_or_default, hl]
    exact ⟨queueInv_default, storeInv_insert hm queueInv_default⟩
  · simp only [get_mut_queue_or_default, hl]
    exact ⟨queueInv_of_lookup hm hl, hm⟩

theorem storeInv_play_index_unchecked (sb : Songbird) (g : GuildId) (i : Nat)
    {m : QueueMap} (hm : storeInv m) :
    storeInv (play_index_unchecked sb g i m).2 := by
  obtain ⟨hq1, hm1⟩ := get_mut_spec m g hm
  simp only [play_index_unchecked]
  split
  · exact hm
  · split
    · exact hm1
    · rename_i handler _ song hget
      have hlt : i < (get_mut_queue_or_default m g).1.songs.length := by
        by_contra hge
        rw [List.getElem?_eq_none (Nat.le_of_not_lt hge)] at hget
        exact Option.noConfusion hget
      apply storeInv_insert hm1
      intro c hc
      injection hc with hc2
      rw [← hc2]
      exact hlt

theorem storeInv_add_song (sb : Songbird) (g : GuildId) (url : String)
    (res : Except String (List AuxMetadata)) {m : QueueMap} (hm : storeInv m) :
    storeInv (add_song sb g url res m).2 := by
  obtain ⟨hq1, hm1⟩ := get_mut_spec m g hm
  unfold add_song
  cases hres : get_song_data url res with
  | err e => exact hm
  | panicked e => exact hm
  | ok song =>
    have hq2 : queueInv
        { (get_mut_queue_or_default m g).1 with
          songs := (get_mut_queue_or_default m g).1.songs ++ [song] } := by
      intro c hc
      have := hq1 c hc
      simp only [List.length_append, List.length_cons, List.length_nil]
      omega
    have hstore1 : storeInv
        (mapInsert (get_mut_queue_or_default m g).2 g
          { (get_mut_queue_or_default m g).1 with
            songs := (get_mut_queue_or_default m g).1.songs ++ [song] }) :=
      storeInv_insert hm1 hq2
    by_cases hcur : (get_mut_queue_or_default m g).1.current.isSome
    · simpa [hcur] using hstore1
    · simpa [hcur] using
        storeInv_play_index_unchecked sb g _ hstore1

theorem storeInv_next_song (sb : Songbird) (g : GuildId) {m : QueueMap}
    (hm : storeInv m) : storeInv (next_song sb g m).2 := by
  obtain ⟨hq1, hm1⟩ := get_mut_spec m g hm
  simp only [next_song]
  split
  · exact hm1
  · split
    · exact hm1
    · split
      all_goals split
      all_goals split
      all_goals
        first
        | exact storeInv_play_index_unchecked sb g _ hm1
        | · apply storeInv_insert hm1
            intro c0 hc0
            exact Option.noConfusion hc0

theorem storeInv_play_index (sb : Songbird) (g : GuildId) (i : Nat)
    {m : QueueMap} (hm : storeInv m) : storeInv (play_index sb g i m).2 := by
  simp only [play_index]
  split
  · exact hm
  · split
    · exact hm
    · split
      · exact hm
      · exact storeInv_play_index_unchecked sb g i hm

theorem storeInv_step (op : Op) {m : QueueMap} (hm : storeInv m) :
    storeInv (step op m) := by
  obtain ⟨hq1, hm1⟩ := get_mut_spec m (match op with
    | Op.addOp _ _ _ g => g
    | Op.nextOp _ g => g
    | Op.playOp _ g _ => g
    | Op.loopSongOp g => g
    | Op.loopQueueOp g => g
    | Op.resetOp g => g) hm
  cases op with
  | addOp sb url res g => exact storeInv_add_song sb g url res hm
  | nextOp sb g => exact storeInv_next_song sb g hm
  | playOp sb g i => exact storeInv_play_index sb g i hm
  | loopSongOp g =>
    have hq2 : queueInv
        { (get_mut_queue_or_default m g).1 with
          loop_song := !(get_mut_queue_or_default m g).1.loop_song } := by
      intro c hc
      exact hq1 c hc
    simpa [step, set_loop_song] using storeInv_insert hm1 hq2
  | loopQueueOp g =>
    have hq2 : queueInv
        { (get_mut_queue_or_default m g).1 with
          loop_queue := !(get_mut_queue_or_default m g).1.loop_queue } := by
      intro c hc
      exact hq1 c hc
    simpa [step, set_loop_queue] using storeInv_insert hm1 hq2
  | resetOp g =>
    intro e he
    exact hm e (mem_mapRemove he)

theorem storeInv_runOps (ops : List Op) : storeInv (runOps ops) := by
  have haux : ∀ (l : List Op) (m : QueueMap), storeInv m →
      storeInv (l.foldl (fun st op => step op st) m) := by
    intro l
    induction l with
    | nil => intro m hm; exact hm
    | cons hd tl ih =>
      intro m hm
      exact ih _ (storeInv_step hd hm)
  have hempty : storeInv ([] : QueueMap) := by
    intro e he
    simp at he
  exact haux ops [] hempty

/-- C2.  Starting from the empty store, after any sequence of queue
operations every guild holds at most one current playback, and
whenever `current` is set its index is a valid position in that
guild's song list. -/
theorem queue_state_invariant (ops : List Op) :
    ∀ g q, mapLookup (runOps ops) g = some q →
      q.current.toList.length ≤ 1 ∧
      ∀ c, q.current = some c → c.index < q.songs.length := by
  intro g q hq
  refine ⟨?_, fun c hc => storeInv_runOps ops (g, q) (mapLookup_mem hq) c hc⟩
  cases q.current <;> simp

/-- Witness for C2: one `add_song` on the empty store yields a store
whose only queue has its current index 0 inside its one-song list. -/
theorem queue_state_invariant_witness :
    mapLookup (runOps [Op.addOp sbW "a" resW 0]) 0 = some qAfterAdd ∧
    (qAfterAdd.current.toList.length ≤ 1 ∧
      ∀ c, qAfterAdd.current = some c → c.index < qAfterAdd.songs.length) :=
  ⟨by decide, queue_state_invariant [Op.addOp sbW "a" resW 0] 0 qAfterAdd (by decide)⟩

/-! ## C3 and C8: `Data::add_song` -/

theorem get_mut_resolve {store : QueueMap} {g : GuildId} {q : ServerQueue}
    (hq : (mapLookup store g).getD ServerQueue.default = q) :
    ∃ store1, get_mut_queue_or_default store g = (q, store1) ∧
      ∀ q2 : ServerQueue, mapInsert store1 g q2 = mapInsert store g q2 := by
  cases hl : mapLookup store g with
  | none =>
    rw [hl] at hq
    refine ⟨mapInsert store g ServerQueue.default, ?_, ?_⟩
    · simp only [get_mut_queue_or_default, hl]
      rw [← hq]
      rfl
    · intro q2
      exact mapInsert_mapInsert store g _ q2
  | some q0 =>
    rw [hl] at hq
    refine ⟨store, ?_, fun q2 => rfl⟩
    simp only [get_mut_queue_or_default, hl]
    rw [← hq]
    rfl

/-- C3.  `add_song` with a successfully resolved song: on a guild
with no current playback it appends the entry, starts playing it
(current set to the new entry's index) and returns `NowPlaying`; on a
guild with a current playback it appends the entry, returns
`AddedToQueue`, and the stored queue keeps `current` exactly as it
was. -/
theorem add_song_spec (sb : Songbird) (h : Handler) (g : GuildId)
    (store : QueueMap) (url : String)
    (res : Except String (List AuxMetadata)) (song : Song)
    (q : ServerQueue)
    (hres : get_song_data url res = Outcome.ok song)
    (hq : (mapLookup store g).getD ServerQueue.default = q) :
    (q.current = none → sb.get g = some h →
      add_song sb g url res store =
        (Outcome.ok (AddSongResult.NowPlaying song),
          mapInsert store g
            { q with songs := q.songs ++ [song],
                     current := some ⟨q.songs.length, h.play_input song.src⟩ })) ∧
    (∀ c, q.current = some c →
      add_song sb g url res store =
        (Outcome.ok (AddSongResult.AddedToQueue song),
          mapInsert store g { q with songs := q.songs ++ [song] })) := by
  obtain ⟨store1, hgm, hins⟩ := get_mut_resolve hq
  constructor
  · intro hcur hsb
    have hlook1 : mapLookup
        (mapInsert store1 g { q with songs := q.songs ++ [song] }) g =
        some { q with songs := q.songs ++ [song] } :=
      mapLookup_mapInsert_self _ _ _
    have hget : ({ q with songs := q.songs ++ [song] } :
        ServerQueue).songs[q.songs.length]? = some song := by
      simp [List.getElem?_concat_length]
    have hpiu := play_index_unchecked_ok hsb hlook1 hget
    rw [hcur] at hpiu
    simp only [hins, mapInsert_mapInsert] at hpiu
    simp only [add_song, hres, hgm]
    simp [hcur, hpiu, hins, mapInsert_mapInsert]
  · intro c hcur
    simp only [add_song, hres, hgm]
    simp [hcur, hins]

/-- Witness for C3: adding song A to `storeW` (whose guild 0 already
plays) appends it and returns `AddedToQueue`, keeping `current`. -/
theorem add_song_spec_witness :
    add_song sbW 0 "a" resW storeW =
      (Outcome.ok (AddSongResult.AddedToQueue songA),
        mapInsert storeW 0 { qW with songs := qW.songs ++ [songA] }) :=
  (add_song_spec sbW handlerW 0 storeW "a" resW songA qW
    (by decide) (by decide)).2 cW rfl

/-- Counterexample for C8: with no voice-channel handler, `add_song`
on the empty store returns the transport error *but the resolved
entry stays appended*: the final store differs from the initial one,
holding the new song. -/
theorem add_song_transport_failure_cex :
    (add_song sbNone 0 "a" resW []).1 =
        Outcome.err "Not in a voice channel to play in" ∧
    (add_song sbNone 0 "a" resW []).2 ≠ [] ∧
    (add_song sbNone 0 "a" resW []).2 =
      [(0, { loop_song := false, loop_queue := false,
             current := none, songs := [songA] })] := by
  decide

/-- C8 amended.  When the transport has no handler for the guild,
`add_song` (on a guild with no current playback) returns the
transport error and leaves `current` untouched, but the newly
resolved entry remains appended to the guild's song list. -/
theorem add_song_transport_failure (sb : Songbird) (g : GuildId)
    (store : QueueMap) (url : String)
    (res : Except String (List AuxMetadata)) (song : Song)
    (q : ServerQueue)
    (hres : get_song_data url res = Outcome.ok song)
    (hq : (mapLookup store g).getD ServerQueue.default = q)
    (hcur : q.current = none) (hsb : sb.get g = none) :
    add_song sb g url res store =
      (Outcome.err "Not in a voice channel to play in",
        mapInsert store g { q with songs := q.songs ++ [song] }) := by
  obtain ⟨store1, hgm, hins⟩ := get_mut_resolve hq
  have hpiuE : play_index_unchecked sb g
      ((q.songs ++ [song]).length - 1)
      (mapInsert store1 g { q with songs := q.songs ++ [song] }) =
      (Except.error "Not in a voice channel to play in",
        mapInsert store1 g { q with songs := q.songs ++ [song] }) := by
    simp [play_index_unchecked, hsb]
  rw [hcur] at hpiuE
  simp only [hins, List.length_append, List.length_cons, List.length_nil,
    Nat.add_sub_cancel] at hpiuE
  simp only [add_song, hres, hgm]
  simp [hcur, hpiuE, hins]

/-- Witness for C8's amended claim at a concrete input. -/
theorem add_song_transport_failure_witness :
    add_song sbNone 1 "a" resW [] =
      (Outcome.err "Not in a voice channel to play in",
        mapInsert [] 1 { ServerQueue.default with songs := [songA] }) :=
  add_song_transport_failure sbNone 1 [] "a" resW songA
    ServerQueue.default (by decide) rfl rfl rfl

/-! ## C7: `Data::play_index` out of range -/

/-- C7.  For a guild with a queue and any index at or past the end of
its song list, `play_index` returns the index-out-of-range error and
the whole store — songs, current, loop flags of every guild — is
returned unchanged. -/
theorem play_index_oob (sb : Songbird) (g : GuildId) (i : Nat)
    (store : QueueMap) (q : ServerQueue)
    (hq : mapLookup store g = some q) (hi : q.songs.length ≤ i) :
    play_index sb g i store =
      (Except.error
        ("Can't find song with index " ++ toString (i + 1) ++ " in queue."),
       store) := by
  have hnone : q.songs[i]? = none := List.getElem?_eq_none hi
  simp [play_index, hq, hnone]

/-- Witness for C7: jumping to index 5 of the two-song queue fails
and leaves the store as it was. -/
theorem play_index_oob_witness :
    play_index sbW 0 5 storeW =
      (Except.error "Can't find song with index 6 in queue.", storeW) :=
  play_index_oob sbW 0 5 storeW qW (by decide) (by decide)

/-! ## C4: zero-result resolution -/

/-- C4 (code bug).  When the resolver returns zero results, the code
does *not* return a `ResolutionFailure`-style error: the zero-result
check `if aux_multiple.len() == 0 {}` has an empty body, so control
reaches `swap_remove(0)` on the empty vector and the task panics.
Both `get_song_data` and `add_song` at such an input produce the
panic outcome, not an error value. -/
theorem zero_result_resolution_panics :
    get_song_data "abc" (Except.ok []) =
      Outcome.panicked "swap_remove index (is 0) should be < len (is 0)" ∧
    add_song sbW 0 "abc" (Except.ok []) [] =
      (Outcome.panicked "swap_remove index (is 0) should be < len (is 0)",
       []) := by
  decide

/-! ## C5 and C9: the track-end handler -/

theorem track_end_act_nil (cap : Nat) (g : GuildId) (st : BotState) :
    track_end_act cap g [] st = st := rfl

theorem track_end_act_cons (cap : Nat) (g : GuildId) (s : Info.Song)
    (rest : List Info.Song) (st : BotState) :
    track_end_act cap g (s :: rest) st =
      track_end_act cap g rest
        { st with
          infos := mapInsert (get_server_info st.infos g).2 g
            { (get_server_info st.infos g).1 with
              previous_songs :=
                push_capped cap (get_server_info st.infos g).1.previous_songs s } } :=
  rfl

theorem get_server_info_fst (m : InfoMap) (g : GuildId) :
    (get_server_info m g).1 = (mapLookup m g).getD Info.ServerInfo.default := by
  cases hl : mapLookup m g <;> simp [get_server_info, hl]

theorem get_server_info_lookup_ne (m : InfoMap) (g gq : GuildId) (hne : g ≠ gq) :
    mapLookup (get_server_info m g).2 gq = mapLookup m gq := by
  cases hl : mapLookup m g with
  | none => simp [get_server_info, hl, mapLookup_mapInsert_ne m g gq _ hne]
  | some a => simp [get_server_info, hl]

theorem track_end_queues (cap : Nat) (g : GuildId) :
    ∀ (songs : List Info.Song) (st : BotState),
      (track_end_act cap g songs st).queues = st.queues := by
  intro songs
  induction songs with
  | nil => intro st; rfl
  | cons s rest ih =>
    intro st
    rw [track_end_act_cons]
    exact ih _

theorem track_end_lookup_self (cap : Nat) (g : GuildId) :
    ∀ (songs : List Info.Song) (st : BotState),
      mapLookup (track_end_act cap g songs st).infos g =
        if songs.isEmpty then mapLookup st.infos g
        else some
          { previous_songs := songs.foldl (push_capped cap)
              ((mapLookup st.infos g).getD Info.ServerInfo.default).previous_songs,
            status_message :=
              ((mapLookup st.infos g).getD Info.ServerInfo.default).status_message } := by
  intro songs
  induction songs with
  | nil =>
    intro st
    rw [track_end_act_nil]
    simp
  | cons s rest ih =>
    intro st
    rw [track_end_act_cons, ih]
    cases rest with
    | nil => simp [mapLookup_mapInsert_self, get_server_info_fst]
    | cons r rs => simp [mapLookup_mapInsert_self, get_server_info_fst]

theorem track_end_lookup_ne (cap : Nat) (g gq : GuildId) (hne : g ≠ gq) :
    ∀ (songs : List Info.Song) (st : BotState),
      mapLookup (track_end_act cap g songs st).infos gq = mapLookup st.infos gq := by
  intro songs
  induction songs with
  | nil => intro st; rfl
  | cons s rest ih =>
    intro st
    rw [track_end_act_cons, ih]
    simp only [mapLookup_mapInsert_ne _ g gq _ hne,
      get_server_info_lookup_ne st.infos g gq hne]

/-- Counterexample for C5: delivering a track-end event for guild 0
of `botW` leaves the queue-engine state exactly as it was — `current`
still points at index 0 — whereas invoking the advance operation
(`next_song`) would have changed it.  The handler therefore does not
invoke advance. -/
theorem track_end_no_advance_cex :
    (track_end_act 5 0 [songE] botW).queues = botW.queues ∧
    (next_song sbW 0 botW.queues).2 ≠ botW.queues := by
  decide

/-- C5 amended.  For every delivered track-end event the handler
leaves the queue-engine state untouched (it never calls `next_song`);
its whole effect is on the display state: each ended track's song is
appended to the guild's previously-played history with front eviction
past the cap, the status pointer and all other guilds' display state
are unchanged, and nothing is surfaced to a user. -/
theorem track_end_act_spec (cap : Nat) (g : GuildId)
    (songs : List Info.Song) (st : BotState) :
    (track_end_act cap g songs st).queues = st.queues ∧
    (songs = [] → track_end_act cap g songs st = st) ∧
    (songs ≠ [] →
      mapLookup (track_end_act cap g songs st).infos g =
        some { previous_songs := songs.foldl (push_capped cap)
                 ((mapLookup st.infos g).getD Info.ServerInfo.default).previous_songs,
               status_message :=
                 ((mapLookup st.infos g).getD Info.ServerInfo.default).status_message }) ∧
    (∀ gq, gq ≠ g →
      mapLookup (track_end_act cap g songs st).infos gq = mapLookup st.infos gq) := by
  refine ⟨track_end_queues cap g songs st, ?_, ?_, ?_⟩
  · rintro rfl
    rfl
  · intro hne
    rw [track_end_lookup_self cap g songs st]
    cases songs with
    | nil => exact absurd rfl hne
    | cons s rest => simp
  · intro gq hgq
    exact track_end_lookup_ne cap g gq (fun he => hgq he.symm) songs st

/-- Witness for C5's amended claim at a concrete event. -/
theorem track_end_act_spec_witness :
    mapLookup (track_end_act 5 0 [songE] botW).infos 0 =
      some { previous_songs := [songE].foldl (push_capped 5)
               ((mapLookup botW.infos 0).getD Info.ServerInfo.default).previous_songs,
             status_message :=
               ((mapLookup botW.infos 0).getD Info.ServerInfo.default).status_message } :=
  (track_end_act_spec 5 0 [songE] botW).2.2.1 (by decide)

/-! ## C9: the history cap and FIFO eviction -/

theorem pop_front_while_over_length (cap : Nat) :
    ∀ l : List Info.Song, (pop_front_while_over cap l).length ≤ cap := by
  intro l
  induction l with
  | nil => simp [pop_front_while_over]
  | cons x xs ih =>
    simp only [pop_front_while_over]
    split
    · exact ih
    · rename_i hcap
      simp only [List.length_cons]
      omega

theorem pop_front_while_over_suffix (cap : Nat) :
    ∀ l : List Info.Song, pop_front_while_over cap l <:+ l := by
  intro l
  induction l with
  | nil => exact List.suffix_refl _
  | cons x xs ih =>
    simp only [pop_front_while_over]
    split
    · exact ih.trans (List.suffix_cons x xs)
    · exact List.suffix_refl _

theorem push_capped_length (cap : Nat) (l : List Info.Song) (s : Info.Song) :
    (push_capped cap l s).length ≤ cap :=
  pop_front_while_over_length cap _

theorem push_capped_suffix (cap : Nat) (l : List Info.Song) (s : Info.Song) :
    push_capped cap l s <:+ l ++ [s] :=
  pop_front_while_over_suffix cap _

theorem infosBounded_get_server_info (cap : Nat) (m : InfoMap) (g : GuildId)
    (hm : infosBounded cap m) : infosBounded cap (get_server_info m g).2 := by
  cases hl : mapLookup m g with
  | some a => simpa [get_server_info, hl] using hm
  | none =>
    simp only [get_server_info, hl]
    intro e he
    rcases mem_mapInsert he with he1 | he1
    · rw [he1]
      simp [Info.ServerInfo.default]
    · exact hm e he1

theorem infosBounded_track_end (cap : Nat) (g : GuildId) :
    ∀ (songs : List Info.Song) (st : BotState),
      infosBounded cap st.infos →
      infosBounded cap (track_end_act cap g songs st).infos := by
  intro songs
  induction songs with
  | nil => intro st h; exact h
  | cons s rest ih =>
    intro st hst
    rw [track_end_act_cons]
    apply ih
    intro e he
    rcases mem_mapInsert he with he1 | he1
    · rw [he1]
      exact push_capped_length cap _ s
    · exact infosBounded_get_server_info cap st.infos g hst e he1

/-- C9.  Over every sequence of track-end events, every guild's
previously-played history stays within the configured cap, and each
push appends the new song at the back while evicting only from the
front: the stored history is always a suffix of (old history ++ new
song). -/
theorem history_cap_fifo (cap : Nat)
    (events : List (GuildId × List Info.Song)) (st : BotState)
    (hst : infosBounded cap st.infos) :
    infosBounded cap (runEvents cap events st).infos ∧
    ∀ l s, push_capped cap l s <:+ l ++ [s] := by
  constructor
  · have haux : ∀ (evs : List (GuildId × List Info.Song)) (st : BotState),
        infosBounded cap st.infos →
        infosBounded cap
          (evs.foldl (fun st ev => track_end_act cap ev.1 ev.2 st) st).infos := by
      intro evs
      induction evs with
      | nil => intro st h; exact h
      | cons e rest ih =>
        intro st h
        exact ih _ (infosBounded_track_end cap e.1 e.2 st h)
    exact haux events st hst
  · intro l s
    exact push_capped_suffix cap l s

/-- Witness for C9: three events on guild 0 with cap 2 leave at most
2 history entries, and a capped push is a suffix of the appended
list. -/
theorem history_cap_fifo_witness :
    infosBounded 2 (runEvents 2 [(0, [songE]), (0, [songF]), (0, [songE])] botW).infos ∧
    ∀ l s, push_capped 2 l s <:+ l ++ [s] :=
  history_cap_fifo 2 [(0, [songE]), (0, [songF]), (0, [songE])] botW
    (fun e he => absurd he (List.not_mem_nil e))

/-! ## C6: the status-message refresh pass -/

theorem mapLookup_run_message_updates (env : UpdateEnv) (infos : InfoMap)
    (g : GuildId) :
    mapLookup (run_message_updates env infos) g =
      (mapLookup infos g).map (process_server_info env g) := by
  induction infos with
  | nil => rfl
  | cons hd tl ih =>
    rcases hd with ⟨g0, i0⟩
    by_cases hg : g0 = g
    · subst hg
      simp [run_message_updates, mapLookup]
    · simp only [run_message_updates, List.map_cons, mapLookup, hg, if_neg hg] at ih ⊢
      exact ih

/-- Counterexample for C6: with an environment where every message
edit succeeds but the bot is in no voice channel, the refresh cycle
clears guild 0's status pointer even though its most recent update
attempt succeeded — refuting the claimed "if and only if the update
attempt failed". -/
theorem status_clear_iff_cex :
    envCex.edit_ok 0 locW = true ∧
    mapLookup (run_message_updates envCex [(0, infoW)]) 0 =
      some { infoW with status_message := none } := by
  decide

/-- C6 amended.  In each refresh cycle, a guild whose pointer is
unset is skipped (its `ServerInfo` is returned untouched, for any
environment); a guild with a pointer keeps it exactly when
`update_queue_messsage` returned `true` (edit succeeded *and* the bot
is in a voice channel) and has it cleared otherwise — i.e. when the
edit failed or the bot is not in the guild's voice channel. -/
theorem run_message_updates_spec (env : UpdateEnv) (infos : InfoMap)
    (g : GuildId) (info : Info.ServerInfo)
    (hl : mapLookup infos g = some info) :
    (info.status_message = none →
      mapLookup (run_message_updates env infos) g = some info) ∧
    (∀ loc, info.status_message = some loc →
      mapLookup (run_message_updates env infos) g =
        some (if update_queue_messsage env g loc then info
              else { info with status_message := none })) := by
  constructor
  · intro hnone
    rw [mapLookup_run_message_updates, hl]
    simp [process_server_info, hnone]
  · intro loc hloc
    rw [mapLookup_run_message_updates, hl]
    simp [process_server_info, hloc]

/-- Witness for C6's amended claim: with edits succeeding and the bot
in channel, the pointer survives the cycle. -/
theorem run_message_updates_spec_witness :
    mapLookup (run_message_updates envOk [(0, infoW)]) 0 =
      some (if update_queue_messsage envOk 0 locW then infoW
            else { infoW with status_message := none }) :=
  (run_message_updates_spec envOk [(0, infoW)] 0 infoW (by decide)).2 locW rfl

/-! ## C10: the bounded retry helper -/

/-- C10.  `try_call_hanging`: if attempt `i` (of the 3) is the first
to complete within its 1-second window, its value is returned; if no
attempt completes within its window, the helper makes exactly 3
attempts, returns `None`, and the time waited out is the full
3 × 1 s of timeout windows. -/
theorem try_call_hanging_spec {T : Type} (f : Nat → Option T) :
    (∀ i v, i < retry_attempt_bound → f i = some v →
      (∀ j, j < i → f j = none) → try_call_hanging f = some v) ∧
    ((∀ i, i < retry_attempt_bound → f i = none) →
      try_call_hanging f = none ∧ try_call_attempts f = 3 ∧
      try_call_timeout_secs_spent f = 3 * retry_timeout_secs) := by
  constructor
  · intro i v hi hv hprev
    have hi3 : i < 3 := hi
    interval_cases i
    · simp [try_call_hanging, try_call_loop, retry_attempt_bound, hv]
    · have h0 := hprev 0 (by omega)
      simp [try_call_hanging, try_call_loop, retry_attempt_bound, h0, hv]
    · have h0 := hprev 0 (by omega)
      have h1 := hprev 1 (by omega)
      simp [try_call_hanging, try_call_loop, retry_attempt_bound, h0, h1, hv]
  · intro hall
    have h0 := hall 0 (by decide)
    have h1 := hall 1 (by decide)
    have h2 := hall 2 (by decide)
    refine ⟨?_, ?_, ?_⟩ <;>
      simp [try_call_hanging, try_call_loop, try_call_attempts,
        try_call_timeout_secs_spent, retry_attempt_bound, retry_timeout_secs,
        h0, h1, h2]

/-- Witness for C10: an operation completing on its second attempt
returns that value; a permanently hanging operation exhausts all 3
attempts for a `None` after 3 seconds of timeouts. -/
theorem try_call_hanging_spec_witness :
    try_call_hanging fSecond = some 42 ∧
    (try_call_hanging fHang = none ∧ try_call_attempts fHang = 3 ∧
      try_call_timeout_secs_spent fHang = 3 * retry_timeout_secs) :=
  ⟨(try_call_hanging_spec fSecond).1 1 42 (by decide) rfl
      (fun j hj => by
        have hj0 : j = 0 := by omega
        subst hj0
        rfl),
    (try_call_hanging_spec fHang).2 (fun i hi => rfl)⟩

end MusicBot
